import Mathlib

/-!
Verification of the generation-and-quota orchestration layer of the
secured-presentation-maker repository.

The definitions below are a shallow embedding of the TypeScript sources:

* `UsageTracker` embeds `src/useUsageTracker.ts` (daily quota ledger kept in
  browser storage).  Storage is modelled explicitly: the versioned JSON blob
  is a `RawState` (with `Option` fields standing for absent or unparsable
  values) and the three legacy scalar keys are carried alongside.  JavaScript
  numbers that reach the counters are integers here; `parseInt` failures are
  `none`.

All functions are written to follow the control flow of the source line by
line; oracles (`Option`-valued functions) stand for network calls.
-/

namespace UsageTracker

/-- Source constant `MAX_DAILY_GENERATIONS` (line 7). -/
def MAX_DAILY_GENERATIONS : Int := 5

/-- Source constant `MAX_DAILY_IMAGES` (line 8). -/
def MAX_DAILY_IMAGES : Int := 20

/-- Source union type `UsageType = 'generations' | 'images'`. -/
inductive UsageType where
  | generations
  | images
deriving DecidableEq, Repr

/-- Source record `UsageState` (date plus both counters). -/
structure UsageState where
  date : String
  generations : Int
  images : Int
deriving DecidableEq, Repr

/-- Raw persisted blob, i.e. `Partial<UsageState>` after `JSON.parse` and the
per-field `parseInt` step: `none` models an absent field or a value whose
`parseInt` is `NaN`. -/
structure RawState where
  date : Option String
  generations : Option Int
  images : Option Int
deriving DecidableEq, Repr

/-- Browser `localStorage` restricted to the four keys the tracker touches:
the versioned blob `sayuna_usage_state_v2` (`none` models an absent key or a
blob `JSON.parse` rejects) and the three legacy scalar keys. -/
structure Storage where
  main : Option RawState
  legacyDate : Option String
  legacyGenerations : Option Int
  legacyImages : Option Int
deriving DecidableEq, Repr

/-- Source `getLimitForType` (lines 26-28). -/
def getLimitForType : UsageType → Int
  | .generations => MAX_DAILY_GENERATIONS
  | .images => MAX_DAILY_IMAGES

/-- Source `sanitizeCount` (lines 30-36): a missing or unparsable value and a
negative value clamp to 0, anything else is capped at `max`. -/
def sanitizeCount (value : Option Int) (max : Int) : Int :=
  match value with
  | none => 0
  | some parsed => if parsed < 0 then 0 else min parsed max

/-- Source `emptyCounts` merged with the date, i.e. the zeroed state for
`today` that `normalizeState` and the legacy reader return. -/
def zeroState (today : String) : UsageState :=
  { date := today, generations := 0, images := 0 }

/-- Source `normalizeState` (lines 40-50). -/
def normalizeState (raw : RawState) (today : String) : UsageState :=
  if raw.date ≠ some today then
    zeroState today
  else
    { date := today
      generations := sanitizeCount raw.generations MAX_DAILY_GENERATIONS
      images := sanitizeCount raw.images MAX_DAILY_IMAGES }

/-- Source `readLegacyState` (lines 52-68). -/
def readLegacyState (s : Storage) (today : String) : UsageState :=
  if s.legacyDate ≠ some today then
    zeroState today
  else
    { date := today
      generations := sanitizeCount s.legacyGenerations MAX_DAILY_GENERATIONS
      images := sanitizeCount s.legacyImages MAX_DAILY_IMAGES }

/-- Source `readStateFromStorage` (lines 70-83): use the versioned blob when
it is present and parses, otherwise fall back to the legacy keys. -/
def readStateFromStorage (s : Storage) (today : String) : UsageState :=
  match s.main with
  | some raw => normalizeState raw today
  | none => readLegacyState s today

/-- View of a `UsageState` as the raw blob it serialises to (the round trip
through `JSON.stringify`/`JSON.parse` is lossless for these fields). -/
def UsageState.toRaw (st : UsageState) : RawState :=
  { date := some st.date, generations := some st.generations, images := some st.images }

/-- Source `persistStateToStorage` (lines 85-95): write the canonical blob
and mirror the three legacy keys. -/
def persistStateToStorage (st : UsageState) (_s : Storage) : Storage :=
  { main := some st.toRaw
    legacyDate := some st.date
    legacyGenerations := some st.generations
    legacyImages := some st.images }

/-- Counter projection for a kind (`state[type]` in the source). -/
def UsageState.count (st : UsageState) : UsageType → Int
  | .generations => st.generations
  | .images => st.images

/-- Counter update for a kind (the computed-key spread `{...state, [type]: v}`
in the source). -/
def UsageState.setCount (st : UsageState) : UsageType → Int → UsageState
  | .generations, v => { st with generations := v }
  | .images, v => { st with images := v }

/-- Source `mutateCounts` (lines 113-119): re-read the truth from storage,
apply the mutator, normalize for date rollover, persist, and return the
persisted state together with the new storage. -/
def mutateCounts (mutator : UsageState → UsageState) (s : Storage) (today : String) :
    UsageState × Storage :=
  let currentState := readStateFromStorage s today
  let nextState := normalizeState (mutator currentState).toRaw today
  (nextState, persistStateToStorage nextState s)

/-- Source `incrementCount` (lines 135-140). -/
def incrementCount (t : UsageType) (s : Storage) (today : String) : UsageState × Storage :=
  mutateCounts (fun st => st.setCount t (st.count t + 1)) s today

/-- Source `tryIncrementCount` (lines 142-159).  The boolean is the
`incremented` flag the mutator closure sets: the mutator runs exactly once,
on the state `mutateCounts` re-reads, so the flag equals the under-limit test
on that state. -/
def tryIncrementCount (t : UsageType) (s : Storage) (today : String) :
    Bool × UsageState × Storage :=
  let limit := getLimitForType t
  let current := readStateFromStorage s today
  let incremented := decide (current.count t < limit)
  let r := mutateCounts
    (fun st => if st.count t ≥ limit then st else st.setCount t (st.count t + 1)) s today
  (incremented, r.1, r.2)

/-- Source `decrementCount` (lines 161-166): floor-clamped to zero. -/
def decrementCount (t : UsageType) (s : Storage) (today : String) : UsageState × Storage :=
  mutateCounts (fun st => st.setCount t (max 0 (st.count t - 1))) s today

/-- One quota operation on a fixed kind, as used by the invariant claim. -/
inductive QuotaOp where
  | tryIncr
  | decr
deriving DecidableEq, Repr

/-- Apply one operation to the storage. -/
def applyOp (t : UsageType) (op : QuotaOp) (s : Storage) (today : String) : Storage :=
  match op with
  | .tryIncr => (tryIncrementCount t s today).2.2
  | .decr => (decrementCount t s today).2

/-- Run a sequence of operations against the storage, left to right. -/
def runOps (t : UsageType) (ops : List QuotaOp) (s : Storage) (today : String) : Storage :=
  match ops with
  | [] => s
  | op :: rest => runOps t rest (applyOp t op s today) today

/-- Pure read, returned together with the (unchanged) storage: the source
read path `readStateFromStorage` contains no `setItem`, which this pairing
makes explicit for the rollover claim. -/
def readOnly (s : Storage) (today : String) : UsageState × Storage :=
  (readStateFromStorage s today, s)

/-- Iterate `readOnly`, threading the storage, and collect the values read. -/
def readMany (s : Storage) (today : String) : Nat → List UsageState × Storage
  | 0 => ([], s)
  | n + 1 =>
    let r := readOnly s today
    let rest := readMany r.2 today n
    (r.1 :: rest.1, rest.2)

end UsageTracker

namespace Orchestrator

open UsageTracker

/-- Flow selected inside `handleCreatePlan` (src/App.tsx lines 366-470):
the College lecture flow, the DepEd single-lesson flow, and the DepEd weekly
blueprint flow (which consumes no generation quota). -/
inductive PlanFlow where
  | college
  | k12single
  | k12weekly
deriving DecidableEq, Repr

/-- Terminal condition of one orchestrated generation request. -/
inductive PlanResult where
  | blocked
  | committed
  | failed
  | noop
deriving DecidableEq, Repr

/-- Observable outcome of an orchestrator handler run: the final storage,
how many times `decrementCount('generations')` ran, and the terminal
condition. -/
structure RunOutcome where
  storage : Storage
  decrements : Nat
  result : PlanResult
deriving Repr

/-- Embeds the quota discipline of `handleCreatePlan` (src/App.tsx lines
366-470).  The awaited generation pipeline inside the `try` block is
abstracted into `bodyFails`: `true` means some awaited step throws and
control reaches the `catch` block.  `shouldRollbackGeneration` is set right
after a successful reservation and cleared on commit, exactly as in the
source; the `catch` block decrements only when the flag is still set. -/
def handleCreatePlan (flow : PlanFlow) (bodyFails : Bool) (s : Storage) (today : String) :
    RunOutcome :=
  match flow with
  | .college | .k12single =>
    let r := tryIncrementCount .generations s today
    if !r.1 then
      { storage := r.2.2, decrements := 0, result := .blocked }
    else if bodyFails then
      { storage := (decrementCount .generations r.2.2 today).2
        decrements := 1
        result := .failed }
    else
      { storage := r.2.2, decrements := 0, result := .committed }
  | .k12weekly =>
    if bodyFails then
      { storage := s, decrements := 0, result := .failed }
    else
      { storage := s, decrements := 0, result := .committed }

/-- Embeds the quota discipline of `handleGenerateDailySlides` (src/App.tsx
lines 473-540): early return without touching the quota when no blueprint is
loaded, otherwise reserve, run the body, and compensate in `catch` while the
rollback flag is set. -/
def handleGenerateDailySlides (hasBlueprint : Bool) (bodyFails : Bool) (s : Storage)
    (today : String) : RunOutcome :=
  if !hasBlueprint then
    { storage := s, decrements := 0, result := .noop }
  else
    let r := tryIncrementCount .generations s today
    if !r.1 then
      { storage := r.2.2, decrements := 0, result := .blocked }
    else if bodyFails then
      { storage := (decrementCount .generations r.2.2 today).2
        decrements := 1
        result := .failed }
    else
      { storage := r.2.2, decrements := 0, result := .committed }

end Orchestrator

namespace StrUtil

/-- Character-list substring test, needle contained anywhere in haystack. -/
def containsCL (hay needle : List Char) : Bool :=
  match hay with
  | [] => needle.isEmpty
  | _ :: t => needle.isPrefixOf hay || containsCL t needle

/-- JavaScript `String.prototype.includes`. -/
def strContains (hay needle : String) : Bool :=
  containsCL hay.toList needle.toList

/-- JavaScript `toUpperCase` on the ASCII inputs this codebase handles. -/
def toUpperStr (s : String) : String :=
  String.mk (s.toList.map Char.toUpper)

/-- JavaScript `toLowerCase` on the ASCII inputs this codebase handles. -/
def toLowerStr (s : String) : String :=
  String.mk (s.toList.map Char.toLower)

/-- Whitespace as matched by `\s` and JavaScript `trim`, restricted to the
ASCII whitespace appearing in this data. -/
def isWsChar (c : Char) : Bool :=
  c == ' ' || c == '\t' || c == '\n' || c == '\r'

/-- Split a character list at every space, JavaScript `split(' ')`. -/
def splitChar (l : List Char) : List (List Char) :=
  match l with
  | [] => [[]]
  | c :: t =>
    let r := splitChar t
    if c == ' ' then [] :: r
    else
      match r with
      | s :: rest => (c :: s) :: rest
      | [] => [[c]]

/-- JavaScript `split(' ')` on strings. -/
def splitOnSpace (s : String) : List String :=
  (splitChar s.toList).map String.mk

/-- JavaScript `trim`. -/
def trimS (s : String) : String :=
  String.mk (((s.toList.dropWhile isWsChar).reverse.dropWhile isWsChar).reverse)

/-- JavaScript `slice(0, n)` on the BMP strings handled here. -/
def takeS (s : String) (n : Nat) : String :=
  String.mk (s.toList.take n)

/-- Drop the first `n` characters. -/
def dropS (s : String) (n : Nat) : String :=
  String.mk (s.toList.drop n)

/-- Drop the final character, `slice(0, -1)`. -/
def dropLastS (s : String) : String :=
  String.mk s.toList.dropLast

/-- JavaScript `startsWith`. -/
def startsWithS (s pre : String) : Bool :=
  pre.toList.isPrefixOf s.toList

/-- JavaScript `endsWith`. -/
def endsWithS (s suf : String) : Bool :=
  suf.toList.reverse.isPrefixOf s.toList.reverse

/-- JavaScript `Array.prototype.join`. -/
def intercalateS (sep : String) : List String → String
  | [] => ""
  | [x] => x
  | x :: rest => x ++ sep ++ intercalateS sep rest

end StrUtil

namespace Gemini

/-- Failure thrown by the external generation client inside the proxy
handler: an optional numeric `status` and a message, the two fields the code
inspects. -/
structure GenError where
  status : Option Int
  message : String
deriving DecidableEq, Repr

/-- Per-model outcome of `ai.models.generateContent` during one proxy
invocation: `none` is success, `some e` is a thrown error.  The response
payload itself is irrelevant to the control flow modelled here. -/
def ModelOracle : Type := String → Option GenError

/-- Source model-fallback loop of the proxy handler (src/api/gemini.ts lines
60-76): iterate the candidate models in order, stop at the first success,
remember the last error.  Returns the result together with the list of models
actually invoked, in order. -/
def modelLoopGo (outcome : String → Option GenError) :
    List String → Option GenError → Except GenError String × List String
  | [], lastError =>
    (Except.error (lastError.getD ⟨none, "All candidate models failed."⟩), [])
  | m :: rest, _lastError =>
    match outcome m with
    | none => (Except.ok m, [m])
    | some e =>
      let r := modelLoopGo outcome rest (some e)
      (r.1, m :: r.2)

/-- HTTP status the proxy catch block derives from a thrown error
(src/api/gemini.ts lines 119-125): the numeric `status` field when present,
500 otherwise. -/
def errorHttpStatus (e : GenError) : Int :=
  e.status.getD 500

/-- One whole proxy invocation as the client observes it, for a POST with a
non-empty model list: either a 200 whose body records the model used, or the
(status, message) pair of the error response.  The second component is the
trace of models invoked. -/
def serverCall (outcome : String → Option GenError) (models : List String) :
    Except (Int × String) String × List String :=
  let r := modelLoopGo outcome models none
  (match r.1 with
    | .ok m => Except.ok m
    | .error e => Except.error (errorHttpStatus e, e.message), r.2)

/-- Source `shouldRetryProxyError` (src client service lines 89-95).  The
`status || 0` coercion of the source is `Option.getD 0`. -/
def shouldRetryProxyError (status : Option Int) (message : String) : Bool :=
  let upperMessage := StrUtil.toUpperStr message
  decide (status.getD 0 = 429 ∨ status.getD 0 = 500 ∨ status.getD 0 = 502 ∨
      status.getD 0 = 503 ∨ status.getD 0 = 504)
    || StrUtil.strContains upperMessage "UNAVAILABLE"
    || StrUtil.strContains upperMessage "HIGH DEMAND"
    || StrUtil.strContains upperMessage "TRY AGAIN LATER"

/-- Source `getRetryDelayMs` (src client service lines 97-102): capped
doubling base delay plus random jitter; the jitter draw
`Math.floor(Math.random() * 350)` is passed in explicitly. -/
def getRetryDelayMs (attempt : Nat) (jitter : Nat) : Nat :=
  min 3200 (800 * 2 ^ (attempt - 1)) + jitter

/-- Error the client rethrows: HTTP status of the failed response plus the
error message from its body. -/
structure ProxyError where
  status : Option Int
  message : String
deriving DecidableEq, Repr

/-- Observable behaviour of one `callGeminiProxy` call: the final result, the
trace of (attempt, model) provider invocations in order, and the sleeps
performed between attempts. -/
structure CallResult where
  result : Except ProxyError String
  trace : List (Nat × String)
  delays : List Nat
deriving Repr

/-- Source `callGeminiProxy` retry loop (src client service lines 108-150),
fuel-structured: `fuel` is the number of loop iterations left and `attempt`
the 1-based counter; the entry point runs `go 3 1` matching
`maxAttempts = 3`.  The per-attempt outcome oracle depends on the attempt
number because each attempt re-invokes the provider. -/
def callGo (outcome : Nat → String → Option GenError) (models : List String)
    (jitter : Nat → Nat) : Nat → Nat → CallResult
  | 0, _ => { result := Except.error ⟨none, "Gemini request failed."⟩, trace := [], delays := [] }
  | fuel + 1, attempt =>
    let round := serverCall (outcome attempt) models
    let tagged := round.2.map (fun m => (attempt, m))
    match round.1 with
    | .ok m => { result := Except.ok m, trace := tagged, delays := [] }
    | .error es =>
      let pe : ProxyError := ⟨some es.1, es.2⟩
      if shouldRetryProxyError pe.status pe.message && decide (attempt < 3) then
        let rest := callGo outcome models jitter fuel (attempt + 1)
        { result := rest.result
          trace := tagged ++ rest.trace
          delays := getRetryDelayMs attempt (jitter attempt) :: rest.delays }
      else
        { result := Except.error pe, trace := tagged, delays := [] }

/-- Source `callGeminiProxy` entry point: up to `maxAttempts = 3` whole-proxy
attempts. -/
def callGeminiProxy (outcome : Nat → String → Option GenError) (models : List String)
    (jitter : Nat → Nat) : CallResult :=
  callGo outcome models jitter 3 1

/-- Specification-style restatement (for the refinement theorem of the retry
claim) of the discipline the client actually implements: each proxy attempt
runs the whole model list once; the attempt is repeated, at most three times
in total, with the capped doubling backoff plus jitter, exactly while the
error surfaced by the previous attempt is retryable. -/
def clientRetrySpec (outcome : Nat → String → Option GenError) (models : List String)
    (jitter : Nat → Nat) : CallResult :=
  let round1 := serverCall (outcome 1) models
  let t1 := round1.2.map (fun m => ((1 : Nat), m))
  match round1.1 with
  | .ok m => { result := Except.ok m, trace := t1, delays := [] }
  | .error e1 =>
    if shouldRetryProxyError (some e1.1) e1.2 then
      let round2 := serverCall (outcome 2) models
      let t2 := round2.2.map (fun m => ((2 : Nat), m))
      match round2.1 with
      | .ok m =>
        { result := Except.ok m, trace := t1 ++ t2, delays := [getRetryDelayMs 1 (jitter 1)] }
      | .error e2 =>
        if shouldRetryProxyError (some e2.1) e2.2 then
          let round3 := serverCall (outcome 3) models
          let t3 := round3.2.map (fun m => ((3 : Nat), m))
          match round3.1 with
          | .ok m =>
            { result := Except.ok m
              trace := t1 ++ t2 ++ t3
              delays := [getRetryDelayMs 1 (jitter 1), getRetryDelayMs 2 (jitter 2)] }
          | .error e3 =>
            { result := Except.error ⟨some e3.1, e3.2⟩
              trace := t1 ++ t2 ++ t3
              delays := [getRetryDelayMs 1 (jitter 1), getRetryDelayMs 2 (jitter 2)] }
        else
          { result := Except.error ⟨some e2.1, e2.2⟩
            trace := t1 ++ t2
            delays := [getRetryDelayMs 1 (jitter 1)] }
    else
      { result := Except.error ⟨some e1.1, e1.2⟩, trace := t1, delays := [] }

/-- Concrete per-attempt outcomes used to refute the per-model retry reading
of the spec: on the first attempt model-a fails with a non-retryable 400 and
model-b with a retryable 503; every later attempt succeeds. -/
def cexOutcome : Nat → String → Option GenError := fun attempt m =>
  if attempt = 1 then
    if m = "model-a" then some ⟨some 400, "bad request"⟩
    else some ⟨some 503, "service unavailable"⟩
  else none

end Gemini

namespace OpenImages

/-- Character kept by the `[^a-z0-9\s-]` replacement (input is lowercased
first, so the case-insensitive flag adds nothing here). -/
def isKeptChar (c : Char) : Bool :=
  ('a' ≤ c && c ≤ 'z') || ('0' ≤ c && c ≤ '9') || c == '-' || StrUtil.isWsChar c

/-- Collapse every whitespace run into a single space, `replace(/\s+/g, ' ')`.
The flag records whether the previous emitted character was a space. -/
def collapseWs (prevWs : Bool) : List Char → List Char
  | [] => []
  | c :: t =>
    if StrUtil.isWsChar c then
      if prevWs then collapseWs true t else ' ' :: collapseWs true t
    else
      c :: collapseWs false t

/-- Drop leading and trailing spaces, JavaScript `trim` after the collapse. -/
def trimSpaces (l : List Char) : List Char :=
  ((l.dropWhile StrUtil.isWsChar).reverse.dropWhile StrUtil.isWsChar).reverse

/-- Source `normalizeText` (multi-provider open-images handler): lowercase,
replace every character outside `[a-z0-9\s-]` with a space, collapse
whitespace runs, trim. -/
def normalizeText (s : String) : String :=
  String.mk (trimSpaces (collapseWs false
    ((s.toList.map Char.toLower).map (fun c => if isKeptChar c then c else ' '))))

/-- Source STOPWORDS set of the multi-provider handler (duplicates in the
source literal are harmless for membership and kept out here). -/
def STOPWORDS : List String :=
  ["the", "a", "an", "for", "and", "or", "to", "of", "in", "on", "with", "from", "by", "at",
   "about", "into", "over", "under", "after", "before", "during", "without", "within", "through",
   "sa", "ang", "ng", "mga", "para", "mula", "ito", "iyan", "iyon", "o", "na", "nang",
   "image", "photo", "pictures", "picture", "illustration", "diagram", "infographic", "slide",
   "showing", "show", "educational", "education", "learning", "classroom", "teacher", "students",
   "high", "quality", "detailed", "realistic", "photorealistic", "cinematic", "style",
   "text", "labels", "caption", "captions", "words", "inside", "clean", "background"]

/-- Source `tokenize`: split the normalized text on spaces, keep trimmed
tokens longer than 2 characters that are not stopwords. -/
def tokenize (s : String) : List String :=
  ((StrUtil.splitOnSpace (normalizeText s)).map (fun t => StrUtil.trimS t)).filter
    (fun t => t.length > 2 && !(STOPWORDS.contains t))

/-- Source union `ImageSource`. -/
inductive ImageSource where
  | wikimedia
  | nasa
  | openverse
deriving DecidableEq, Repr

/-- Source record `OpenImageCandidate` of the multi-provider handler.
Optional fields of the TypeScript type are `Option`s; JavaScript `undefined`
and the empty string behave identically in every use below, both mapping to
a falsy value. -/
structure OpenImageCandidate where
  id : String
  title : String
  description : String
  url : String
  thumbnail : Option String
  sourceUrl : Option String
  landingUrl : Option String
  source : ImageSource
  provider : String
  license : String
  creator : String
  tags : List String
  width : Option Int
  height : Option Int
  assetId : Option String
deriving DecidableEq, Repr

/-- Source `RankedImage = OpenImageCandidate & {confidence}`. -/
structure RankedImage where
  cand : OpenImageCandidate
  confidence : ℚ
deriving DecidableEq, Repr

/-- Source `clamp(value, min, max) = Math.max(min, Math.min(max, value))`. -/
def clamp (value lo hi : ℚ) : ℚ :=
  max lo (min hi value)

/-- Source EDUCATIONAL_TERMS. -/
def EDUCATIONAL_TERMS : List String :=
  ["diagram", "anatomy", "map", "experiment", "microscope", "classroom", "education",
   "historical", "geography", "biology", "chemistry", "physics", "mathematics", "science",
   "lesson", "curriculum", "planet", "solar", "earth", "moon", "mars", "galaxy"]

/-- Source SPACE_TERMS. -/
def SPACE_TERMS : List String :=
  ["space", "planet", "solar", "orbit", "galaxy", "astronomy", "astronaut", "nasa", "rocket",
   "moon", "mars", "satellite", "nebula", "cosmos", "universe", "apollo", "telescope"]

/-- Source DOMAIN_KEYWORDS record, in insertion order (the order
`Object.entries` iterates). -/
def DOMAIN_KEYWORDS : List (String × List String) :=
  [("biology", ["cell", "plant", "animal", "ecosystem", "photosynthesis", "anatomy", "organism"]),
   ("chemistry", ["atom", "molecule", "reaction", "chemical", "periodic", "acid", "base",
     "compound"]),
   ("physics", ["force", "motion", "energy", "electric", "magnet", "wave", "gravity",
     "momentum"]),
   ("geography", ["map", "region", "country", "climate", "mountain", "river", "continent"]),
   ("history", ["historical", "century", "war", "revolution", "civilization", "artifact",
     "ancient"]),
   ("math", ["algebra", "geometry", "equation", "graph", "triangle", "fraction", "calculus"]),
   ("space", SPACE_TERMS)]

/-- Source `containsAny`. -/
def containsAny (text : String) (words : List String) : Bool :=
  words.any (fun word => StrUtil.strContains text word)

/-- Source `extractDomain`: first domain whose keyword list contains one of
the query tokens. -/
def extractDomain (tokens : List String) : Option String :=
  (DOMAIN_KEYWORDS.find? (fun p => tokens.any (fun tok => p.2.contains tok))).map (fun p => p.1)

/-- Combined candidate text scored by `computeConfidence`: the normalized
title, description and joined tags glued with single spaces and trimmed,
exactly the template-literal-and-trim of the source. -/
def combinedText (image : OpenImageCandidate) : String :=
  StrUtil.trimS (normalizeText image.title ++ " " ++ normalizeText image.description ++ " "
    ++ normalizeText (StrUtil.intercalateS " " image.tags))

/-- Source `computeConfidence` of the multi-provider handler (token coverage,
title coverage, provider trust, resolution quality, educational and phrase
boosts, domain alignment, mismatch and noise penalties, clamped to [0,1]).
JavaScript numbers are modelled as rationals. -/
def computeConfidence (queryTokens : List String) (image : OpenImageCandidate)
    (domain : Option String) (isSpaceTopic : Bool) : ℚ :=
  if queryTokens.length = 0 then 0
  else
    let title := normalizeText image.title
    let combined := combinedText image
    if combined = "" then 0
    else
      let tokenMatches := queryTokens.filter (fun tok => StrUtil.strContains combined tok)
      let titleMatches := queryTokens.filter (fun tok => StrUtil.strContains title tok)
      if queryTokens.length ≥ 3 ∧ tokenMatches.length = 0 then 0
      else
        let coverage : ℚ := (tokenMatches.length : ℚ) / ((max 1 (min 7 queryTokens.length) : Nat) : ℚ)
        let titleCoverage : ℚ :=
          (titleMatches.length : ℚ) / ((max 1 (min 6 queryTokens.length) : Nat) : ℚ)
        let providerBoost : ℚ :=
          match image.source with
          | .wikimedia => 0.12
          | .nasa => if isSpaceTopic then 0.18 else 0.07
          | .openverse => 0.03
        let qualityBoost : ℚ :=
          match image.width, image.height with
          | some w, some h =>
            if w ≠ 0 ∧ h ≠ 0 then
              let pixels : ℚ := (w : ℚ) * (h : ℚ)
              let base : ℚ := min 0.12 (pixels / 24000000)
              let aspect : ℚ := (w : ℚ) / ((max 1 h : Int) : ℚ)
              base + (if 1.15 ≤ aspect ∧ aspect ≤ 2.2 then 0.07
                else if 0.8 ≤ aspect ∧ aspect ≤ 2.6 then 0.03 else 0)
            else 0
          | _, _ => 0
        let educationalBoost : ℚ := if containsAny combined EDUCATIONAL_TERMS then 0.08 else 0
        let phrase := StrUtil.intercalateS " " (queryTokens.take 3)
        let phraseBoost : ℚ :=
          if phrase.length ≥ 6 ∧ StrUtil.strContains title phrase then 0.1 else 0
        let domainScore : ℚ :=
          match domain with
          | some d =>
            match DOMAIN_KEYWORDS.find? (fun p => p.1 = d) with
            | some p => if containsAny combined p.2 then 0.08 else -0.14
            | none => 0
          | none => 0
        let spacePenalty : ℚ :=
          if isSpaceTopic ∧ ¬ containsAny combined SPACE_TERMS then 0.2 else 0
        let noisyVisualTerms : List String :=
          ["logo", "icon", "poster", "advertisement", "meme", "wallpaper", "template"]
        let noisePenalty : ℚ :=
          if containsAny combined noisyVisualTerms ∧
              ¬ containsAny (normalizeText (StrUtil.intercalateS " " queryTokens))
                noisyVisualTerms then 0.18
          else 0
        let rawScore : ℚ := coverage * 0.5 + titleCoverage * 0.2 + providerBoost + qualityBoost
          + educationalBoost + phraseBoost + domainScore - (spacePenalty + noisePenalty)
        clamp rawScore 0 1

/-- Stable insert for the descending confidence sort. -/
def insertByConfDesc (c : RankedImage) : List RankedImage → List RankedImage
  | [] => [c]
  | d :: t => if d.confidence ≤ c.confidence then c :: d :: t else d :: insertByConfDesc c t

/-- Stable descending sort by confidence, modelling the (specified-stable)
JavaScript `sort((a, b) => b.confidence - a.confidence)`. -/
def sortByConfDesc (l : List RankedImage) : List RankedImage :=
  l.foldr insertByConfDesc []

/-- Source `rankImages`: score every candidate, drop zero scores, sort
descending by confidence. -/
def rankImages (images : List OpenImageCandidate) (queryTokens : List String) :
    List RankedImage :=
  let domain := extractDomain queryTokens
  let isSpaceTopic := queryTokens.any (fun tok => SPACE_TERMS.contains tok)
  sortByConfDesc
    ((images.map (fun img =>
      ({ cand := img, confidence := computeConfidence queryTokens img domain isSpaceTopic }
        : RankedImage))).filter (fun r => 0 < r.confidence))

/-- Components of a parsed URL. -/
structure UrlParts where
  scheme : String
  host : String
  path : String
  query : String
  frag : String
deriving DecidableEq, Repr

/-- Modelled WHATWG `new URL(...)` parser, restricted to the absolute
http(s) URLs these handlers manipulate: scheme and non-empty lowercased
host, then path, query and fragment split on the first `/`, `?` and `#`.
A parse failure (the `TypeError` the source catches) is `none`; URLs needing
further WHATWG normalisation (ports, dot segments, percent escapes) are
outside the data this repository feeds in. -/
def parseUrl (s : String) : Option UrlParts :=
  let scheme := if StrUtil.startsWithS (StrUtil.toLowerStr s) "http://" then "http"
    else if StrUtil.startsWithS (StrUtil.toLowerStr s) "https://" then "https" else ""
  if scheme = "" then none
  else
    let cs := (StrUtil.dropS s (scheme.length + 3)).toList
    let hostChars := cs.takeWhile (fun c => c != '/' && c != '?' && c != '#')
    if hostChars.isEmpty then none
    else
      let host := String.mk (hostChars.map Char.toLower)
      let afterHost := cs.drop hostChars.length
      match afterHost with
      | [] => some ⟨scheme, host, "", "", ""⟩
      | c :: t =>
        if c == '#' then some ⟨scheme, host, "", "", String.mk t⟩
        else if c == '?' then
          let qchars := t.takeWhile (fun x => x != '#')
          some ⟨scheme, host, "", String.mk qchars,
            String.mk ((t.drop qchars.length).drop 1)⟩
        else
          let pchars := t.takeWhile (fun x => x != '?' && x != '#')
          let rest2 := t.drop pchars.length
          match rest2 with
          | [] => some ⟨scheme, host, String.mk (c :: pchars), "", ""⟩
          | d :: u =>
            if d == '?' then
              let qchars := u.takeWhile (fun x => x != '#')
              some ⟨scheme, host, String.mk (c :: pchars), String.mk qchars,
                String.mk ((u.drop qchars.length).drop 1)⟩
            else
              some ⟨scheme, host, String.mk (c :: pchars), "", String.mk u⟩

/-- WHATWG serialisation with the fragment cleared (`parsed.hash = ''` then
`toString()`): an empty path serialises as `/`, the query survives. -/
def serializeUrlNoFrag (p : UrlParts) : String :=
  p.scheme ++ "://" ++ p.host ++ (if p.path = "" then "/" else p.path)
    ++ (if p.query = "" then "" else "?" ++ p.query)

/-- Source `normalizeUrlKey` (multi-provider handler): clear the fragment,
serialise, trim one trailing slash; an unparsable URL is returned verbatim. -/
def normalizeUrlKey (url : String) : String :=
  match parseUrl url with
  | none => url
  | some p =>
    let normalized := serializeUrlNoFrag p
    if StrUtil.endsWithS normalized "/" then StrUtil.dropLastS normalized else normalized

/-- Key function written from the words of the specification sentence behind
the dedup claim (query string AND fragment stripped, trailing slash trimmed),
kept separate so it can be compared with the `normalizeUrlKey` of the source,
which strips only the fragment. -/
def specUrlKey (url : String) : String :=
  match parseUrl url with
  | none => url
  | some p =>
    let normalized := p.scheme ++ "://" ++ p.host ++ (if p.path = "" then "/" else p.path)
    if StrUtil.endsWithS normalized "/" then StrUtil.dropLastS normalized else normalized

/-- The `image.url || image.thumbnail || image.id` chain feeding the dedup
key. -/
def dedupeKeySource (c : OpenImageCandidate) : String :=
  if c.url ≠ "" then c.url
  else if c.thumbnail.getD "" ≠ "" then c.thumbnail.getD ""
  else c.id

/-- Dedup key of one candidate as computed by `mergeAndDedupeResults`. -/
def dedupeKey (c : OpenImageCandidate) : String :=
  normalizeUrlKey (dedupeKeySource c)

/-- Source `mergeAndDedupeResults` loop: skip an empty or already-seen key,
otherwise keep the candidate and remember its key. -/
def mergeGo : List OpenImageCandidate → List String → List OpenImageCandidate
  | [], _ => []
  | c :: rest, seen =>
    let key := dedupeKey c
    if key = "" || seen.contains key then mergeGo rest seen
    else c :: mergeGo rest (key :: seen)

/-- Source `mergeAndDedupeResults` (multi-provider handler). -/
def mergeAndDedupeResults (results : List OpenImageCandidate) : List OpenImageCandidate :=
  mergeGo results []

/-- Source ALLOWED_PROXY_SUFFIXES. -/
def ALLOWED_PROXY_SUFFIXES : List String :=
  [".wikimedia.org", ".si.edu", ".metmuseum.org", ".metmuseum.net", ".nasa.gov"]

/-- Source `isAllowedProxyHost`: http(s) URLs (the only ones `parseUrl`
accepts, matching the protocol check of the source) whose lowercased host is
an allowed suffix without its leading dot or ends with the suffix. -/
def isAllowedProxyHost (rawUrl : String) : Bool :=
  match parseUrl rawUrl with
  | none => false
  | some p =>
    ALLOWED_PROXY_SUFFIXES.any (fun suffix =>
      p.host == StrUtil.dropS suffix 1 || StrUtil.endsWithS p.host suffix)

/-- Uppercase hexadecimal digit. -/
def hexDigit (n : Nat) : Char :=
  if n < 10 then Char.ofNat (48 + n) else Char.ofNat (55 + n)

/-- UTF-8 bytes of one code point. -/
def utf8Bytes (c : Char) : List Nat :=
  let n := c.toNat
  if n < 128 then [n]
  else if n < 2048 then [192 + n / 64, 128 + n % 64]
  else if n < 65536 then [224 + n / 4096, 128 + (n / 64) % 64, 128 + n % 64]
  else [240 + n / 262144, 128 + (n / 4096) % 64, 128 + (n / 64) % 64, 128 + n % 64]

/-- Characters `encodeURIComponent` leaves unescaped. -/
def isUnreservedUriChar (c : Char) : Bool :=
  c.isAlphanum || c == '-' || c == '_' || c == '.' || c == '!' || c == '~' || c == '*'
    || c == Char.ofNat 39 || c == '(' || c == ')'

/-- JavaScript `encodeURIComponent`. -/
def encodeURIComponent (s : String) : String :=
  String.mk ((s.toList.map (fun c =>
    if isUnreservedUriChar c then [c]
    else (utf8Bytes c).foldr (fun b acc => '%' :: hexDigit (b / 16) :: hexDigit (b % 16) :: acc)
      [])).flatten)

/-- Source `createProxyUrl`. -/
def createProxyUrl (imageUrl : String) : String :=
  "/api/image-proxy?u=" ++ encodeURIComponent imageUrl

/-- Source `ResolvedImagePayload`: exactly one of `dataUrl`/`proxyUrl` is
populated by the resolver below. -/
structure ResolvedImagePayload where
  url : String
  dataUrl : Option String
  proxyUrl : Option String
deriving DecidableEq, Repr

/-- First-occurrence dedup, `Array.from(new Set(...))`. -/
def dedupFirstGo : List String → List String → List String
  | [], _ => []
  | x :: t, seen => if seen.contains x then dedupFirstGo t seen else x :: dedupFirstGo t (x :: seen)

def dedupFirst (l : List String) : List String :=
  dedupFirstGo l []

/-- The case-insensitive `/^https?:\/\//i` test. -/
def startsWithHttpScheme (u : String) : Bool :=
  StrUtil.startsWithS (StrUtil.toLowerStr u) "http://"
    || StrUtil.startsWithS (StrUtil.toLowerStr u) "https://"

/-- URL walk inside `resolveUsableImage`: an allow-listed host resolves to a
proxy reference; otherwise an http(s) URL is fetched server-side (`fetchO`
models `tryFetchAsDataUrl`, returning the embedded data URL or `none` on any
network, MIME or size failure) and success resolves to embedded data. -/
def walkUrls (fetchO : String → Option String) : List String → Option ResolvedImagePayload
  | [] => none
  | u :: rest =>
    if isAllowedProxyHost u then some ⟨u, none, some (createProxyUrl u)⟩
    else if startsWithHttpScheme u then
      match fetchO u with
      | some d => some ⟨u, some d, none⟩
      | none => walkUrls fetchO rest
    else walkUrls fetchO rest

/-- Source `resolveUsableImage`: NASA assets are resolved through the asset
endpoint first (`nasaO` models `resolveNasaAssetUrl`), then sourceUrl, url
and thumbnail, trimmed, deduped keeping first occurrences, and walked. -/
def resolveUsableImage (nasaO fetchO : String → Option String)
    (image : OpenImageCandidate) : Option ResolvedImagePayload :=
  let nasaCandidates : List String :=
    match image.source, image.assetId with
    | .nasa, some aid =>
      match nasaO aid with
      | some u => [u]
      | none => []
    | _, _ => []
  let direct : List String :=
    ([image.sourceUrl.getD "", image.url, image.thumbnail.getD ""].map
      (fun c => StrUtil.trimS c)).filter (fun c => c ≠ "")
  walkUrls fetchO (dedupFirst (nasaCandidates ++ direct))

/-- Walk of the admitted candidate pool (handler lines 856-863): first
resolvable candidate wins; also returns the list of candidates attempted, in
order. -/
def walkPool (resolveO : OpenImageCandidate → Option ResolvedImagePayload) :
    List RankedImage → Option (RankedImage × ResolvedImagePayload) × List OpenImageCandidate
  | [] => (none, [])
  | c :: rest =>
    match resolveO c.cand with
    | some r => (some (c, r), [c.cand])
    | none =>
      let w := walkPool resolveO rest
      (w.1, c.cand :: w.2)

/-- Last-resort walk over the merged results (handler lines 866-875); a hit
is reported with confidence overwritten to 0.2. -/
def walkFallback (resolveO : OpenImageCandidate → Option ResolvedImagePayload) :
    List OpenImageCandidate →
      Option (RankedImage × ResolvedImagePayload) × List OpenImageCandidate
  | [] => (none, [])
  | c :: rest =>
    match resolveO c with
    | some r => (some (⟨c, 0.2⟩, r), [c])
    | none =>
      let w := walkFallback resolveO rest
      (w.1, c :: w.2)

/-- Handler admission pool (lines 847-849): candidates at or above the 0.35
minimum confidence, capped at 8; if none qualify, the top 8 ranked
candidates regardless of score. -/
def candidatePool (ranked : List RankedImage) : List RankedImage :=
  let viable := (ranked.filter (fun c => (0.35 : ℚ) ≤ c.confidence)).take 8
  if viable.isEmpty then ranked.take 8 else viable

/-- Candidate selection of the handler (lines 847-879): an empty pool
answers null immediately; otherwise walk the pool, and only if every pool
candidate failed walk the first 10 merged results.  Returns the selection
and the full attempt trace. -/
def selectImage (resolveO : OpenImageCandidate → Option ResolvedImagePayload)
    (ranked : List RankedImage) (merged : List OpenImageCandidate) :
    Option (RankedImage × ResolvedImagePayload) × List OpenImageCandidate :=
  let pool := candidatePool ranked
  if pool.isEmpty then (none, [])
  else
    let w := walkPool resolveO pool
    match w.1 with
    | some hit => (some hit, w.2)
    | none =>
      let f := walkFallback resolveO (merged.take 10)
      (f.1, w.2 ++ f.2)

/-- Source `buildSearchCandidates` (multi-provider handler): compact keyword
form plus educational and diagram variants, the truncated raw query, and the
Filipino variants, deduped in insertion order and capped at 4. -/
def buildSearchCandidates (query lang : String) : List String :=
  let normalized := normalizeText query
  let tokens := (StrUtil.splitOnSpace normalized).filter (fun t => t ≠ "")
  let keywordTokens := tokens.filter (fun t => t.length > 2 && !(STOPWORDS.contains t))
  let compact := StrUtil.intercalateS " " (keywordTokens.take 10)
  let base : List String :=
    (if compact ≠ "" then [compact, compact ++ " educational", compact ++ " diagram"] else [])
      ++ [StrUtil.takeS (StrUtil.trimS query) 180]
      ++ (if lang = "FIL" ∧ compact ≠ "" then [compact ++ " larawan", compact ++ " pang edukasyon"]
        else [])
  ((dedupFirst base).filter (fun c => (StrUtil.trimS c).length > 0)).take 4

/-- Body of an open-images HTTP response, as far as the handler
distinguishes them. -/
inductive RespBody where
  | err : String → RespBody
  | imageNull
  | imageFound : RankedImage → ResolvedImagePayload → RespBody
deriving DecidableEq, Repr

/-- The multi-provider open-images handler (part_003 lines 803-916) as a
function of the request and of oracles for the outside world.
`authEnabled`/`sessionValid` model `requireSession`
(src/lib/sessionAuth.ts lines 170-185): when app-store auth is enabled and
no valid session claims can be read, the handler answers 401 and stops.
`searchResults` is the flattened output of the `Promise.allSettled`
provider fetches (a rejected task contributes nothing, a fulfilled one its
candidates); `nasaO`/`fetchO` are the resolution oracles.  The `try` block
is total here, so the `catch` route to 200 `{image:null}` has no separate
branch.  `searchAndSelect` is the body of that `try` block from the
token-emptiness check on. -/
def searchAndSelect (queryTokens : List String) (searchResults : List OpenImageCandidate)
    (nasaO fetchO : String → Option String) : Int × RespBody :=
  if queryTokens.isEmpty then (200, RespBody.imageNull)
  else
    let merged := mergeAndDedupeResults searchResults
    if merged.isEmpty then (200, RespBody.imageNull)
    else
      let ranked := (rankImages merged queryTokens).filter
        (fun c => c.cand.url ≠ "" || c.cand.thumbnail.getD "" ≠ "")
      let sel := selectImage (resolveUsableImage nasaO fetchO) ranked merged
      match sel.1 with
      | none => (200, RespBody.imageNull)
      | some (best, resolved) => (200, RespBody.imageFound best resolved)

/-- Routing, auth and query guards of the multi-provider open-images handler
around `searchAndSelect`. -/
def openImagesHandler (method : String) (authEnabled sessionValid : Bool)
    (rawQuery rawLang : Option String) (searchResults : List OpenImageCandidate)
    (nasaO fetchO : String → Option String) : Int × RespBody :=
  if method ≠ "GET" then (405, RespBody.err "Method not allowed. Use GET.")
  else if authEnabled ∧ ¬ sessionValid then
    (401, RespBody.err "Unauthorized: Sign in through the app store first.")
  else
    let lang := StrUtil.toUpperStr (rawLang.getD "EN")
    let query := StrUtil.takeS (StrUtil.trimS (rawQuery.getD "")) 220
    if query = "" then (400, RespBody.err "Missing q query parameter.")
    else
      let searchCandidates := buildSearchCandidates query lang
      let first := searchCandidates.headD ""
      let queryTokens := tokenize (if first = "" then query else first)
      searchAndSelect queryTokens searchResults nasaO fetchO

/-- Concrete zero-overlap candidate used to evaluate the ranker claims. -/
def cexBalloons : OpenImageCandidate :=
  { id := "b1", title := "Birthday party balloons", description := "",
    url := "https://img.example.org/balloons.jpg", thumbnail := none, sourceUrl := none,
    landingUrl := none, source := .openverse, provider := "flickr", license := "BY",
    creator := "someone", tags := ["party", "balloons"], width := some 2000,
    height := some 1500, assetId := none }

/-- Base candidate for the dedup fixtures. -/
def cexDedupBase : OpenImageCandidate :=
  { id := "d0", title := "Base", description := "", url := "", thumbnail := none,
    sourceUrl := none, landingUrl := none, source := .openverse, provider := "openverse",
    license := "CC0", creator := "", tags := [], width := none, height := none,
    assetId := none }

/-- Dedup fixture: resource with a small-size query string. -/
def cexImageA : OpenImageCandidate :=
  { cexDedupBase with id := "da", url := "https://img.example.org/pic?size=small" }

/-- Dedup fixture: same resource with a different query string. -/
def cexImageB : OpenImageCandidate :=
  { cexDedupBase with id := "db", url := "https://img.example.org/pic?size=large" }

/-- Dedup fixture: same resource and query string as `cexImageA`, different
fragment. -/
def cexImageC : OpenImageCandidate :=
  { cexDedupBase with id := "dc", url := "https://img.example.org/pic?size=small#other" }

/-- Resolver fixture: top-ranked candidate on a host that is not
allow-listed, whose server-side fetch fails. -/
def wCand1 : OpenImageCandidate :=
  { cexDedupBase with id := "w1", title := "First", url := "https://one.example.net/a.png" }

/-- Resolver fixture: second candidate on an allow-listed host. -/
def wCand2 : OpenImageCandidate :=
  { cexDedupBase with
    id := "w2"
    title := "Second"
    url := "https://upload.wikimedia.org/b.png" }

/-- Resolver fixture rankings. -/
def wRank1 : RankedImage := { cand := wCand1, confidence := 0.9 }

def wRank2 : RankedImage := { cand := wCand2, confidence := 0.8 }

/-- Oracle that fails every lookup. -/
def wNoneOracle : String → Option String := fun _ => none

end OpenImages

namespace UsageTracker

theorem getLimit_pos (t : UsageType) : 0 < getLimitForType t := by
  cases t <;> decide

theorem zero_le_maxg : (0 : Int) ≤ MAX_DAILY_GENERATIONS := by decide

theorem zero_le_maxi : (0 : Int) ≤ MAX_DAILY_IMAGES := by decide

theorem zero_le_limit (t : UsageType) : (0 : Int) ≤ getLimitForType t :=
  le_of_lt (getLimit_pos t)

theorem sanitizeCount_nonneg (v : Option Int) (m : Int) (hm : 0 ≤ m) :
    0 ≤ sanitizeCount v m := by
  unfold sanitizeCount
  cases v with
  | none => simp
  | some n =>
    by_cases h : n < 0
    · simp [h]
    · simp only [h, if_false]
      exact le_min (by omega) hm

theorem sanitizeCount_le (v : Option Int) (m : Int) (hm : 0 ≤ m) : sanitizeCount v m ≤ m := by
  unfold sanitizeCount
  cases v with
  | none => simpa using hm
  | some n =>
    by_cases h : n < 0
    · simpa [h] using hm
    · simp [h]

/-- Every state produced by `normalizeState` carries the date it was
normalized against and has both counters in range. -/
theorem normalizeState_wf (raw : RawState) (today : String) :
    (normalizeState raw today).date = today ∧
      0 ≤ (normalizeState raw today).generations ∧
      (normalizeState raw today).generations ≤ MAX_DAILY_GENERATIONS ∧
      0 ≤ (normalizeState raw today).images ∧
      (normalizeState raw today).images ≤ MAX_DAILY_IMAGES := by
  unfold normalizeState
  by_cases h : raw.date ≠ some today
  · rw [if_pos h]
    exact ⟨rfl, le_refl 0, zero_le_maxg, le_refl 0, zero_le_maxi⟩
  · rw [if_neg h]
    exact ⟨rfl, sanitizeCount_nonneg _ _ (by decide), sanitizeCount_le _ _ (by decide),
      sanitizeCount_nonneg _ _ (by decide), sanitizeCount_le _ _ (by decide)⟩

/-- Every state the read path returns is well formed: its date is today and
each counter lies between 0 and its configured limit. -/
theorem readState_wf (s : Storage) (today : String) (t : UsageType) :
    (readStateFromStorage s today).date = today ∧
      0 ≤ (readStateFromStorage s today).count t ∧
      (readStateFromStorage s today).count t ≤ getLimitForType t := by
  unfold readStateFromStorage
  cases hm : s.main with
  | some raw =>
    obtain ⟨h1, h2, h3, h4, h5⟩ := normalizeState_wf raw today
    cases t
    · exact ⟨h1, h2, h3⟩
    · exact ⟨h1, h4, h5⟩
  | none =>
    unfold readLegacyState
    by_cases h : s.legacyDate ≠ some today
    · rw [if_pos h]
      cases t
      · exact ⟨rfl, le_refl 0, zero_le_limit _⟩
      · exact ⟨rfl, le_refl 0, zero_le_limit _⟩
    · rw [if_neg h]
      cases t
      · exact ⟨rfl, sanitizeCount_nonneg _ _ (by decide), sanitizeCount_le _ _ (by decide)⟩
      · exact ⟨rfl, sanitizeCount_nonneg _ _ (by decide), sanitizeCount_le _ _ (by decide)⟩

theorem count_setCount_self (st : UsageState) (t : UsageType) (v : Int) :
    (st.setCount t v).count t = v := by
  cases t <;> rfl

theorem date_setCount (st : UsageState) (t : UsageType) (v : Int) :
    (st.setCount t v).date = st.date := by
  cases t <;> rfl

/-- Normalising the serialised form of a well-formed state gives the state
back unchanged. -/
theorem normalizeState_toRaw_of_wf (st : UsageState) (today : String)
    (hd : st.date = today)
    (hg0 : 0 ≤ st.generations) (hg : st.generations ≤ MAX_DAILY_GENERATIONS)
    (hi0 : 0 ≤ st.images) (hi : st.images ≤ MAX_DAILY_IMAGES) :
    normalizeState st.toRaw today = st := by
  obtain ⟨d, g, i⟩ := st
  dsimp only at hd hg0 hg hi0 hi
  subst hd
  unfold normalizeState UsageState.toRaw sanitizeCount
  have hg' : ¬ g < 0 := by omega
  have hi' : ¬ i < 0 := by omega
  simp [hg', hi', min_eq_left hg, min_eq_left hi]

/-- Reading back what `persistStateToStorage` wrote re-normalizes the written
state. -/
theorem readState_persist (st : UsageState) (s : Storage) (today : String) :
    readStateFromStorage (persistStateToStorage st s) today = normalizeState st.toRaw today := by
  rfl

theorem count_generations (st : UsageState) : st.count .generations = st.generations := rfl

theorem count_images (st : UsageState) : st.count .images = st.images := rfl

/-- Normalisation is idempotent. -/
theorem normalizeState_idem (raw : RawState) (today : String) :
    normalizeState (normalizeState raw today).toRaw today = normalizeState raw today := by
  obtain ⟨h1, h2, h3, h4, h5⟩ := normalizeState_wf raw today
  exact normalizeState_toRaw_of_wf _ _ h1 h2 h3 h4 h5

/-- Field-level well-formedness of the read path. -/
theorem readState_wf_parts (s : Storage) (today : String) :
    (readStateFromStorage s today).date = today ∧
      0 ≤ (readStateFromStorage s today).generations ∧
      (readStateFromStorage s today).generations ≤ MAX_DAILY_GENERATIONS ∧
      0 ≤ (readStateFromStorage s today).images ∧
      (readStateFromStorage s today).images ≤ MAX_DAILY_IMAGES := by
  have hg := readState_wf s today .generations
  have hi := readState_wf s today .images
  rw [count_generations] at hg
  rw [count_images] at hi
  exact ⟨hg.1, hg.2.1, hg.2.2, hi.2.1, hi.2.2⟩

theorem readState_norm (s : Storage) (today : String) :
    normalizeState (readStateFromStorage s today).toRaw today = readStateFromStorage s today := by
  obtain ⟨h1, h2, h3, h4, h5⟩ := readState_wf_parts s today
  exact normalizeState_toRaw_of_wf _ _ h1 h2 h3 h4 h5

theorem mutateCounts_fst (m : UsageState → UsageState) (s : Storage) (today : String) :
    (mutateCounts m s today).1 = normalizeState (m (readStateFromStorage s today)).toRaw today :=
  rfl

theorem mutateCounts_snd (m : UsageState → UsageState) (s : Storage) (today : String) :
    (mutateCounts m s today).2 =
      persistStateToStorage (normalizeState (m (readStateFromStorage s today)).toRaw today) s :=
  rfl

/-- After any mutation, reading the new storage returns exactly the state the
mutation persisted. -/
theorem readState_after_mutate (m : UsageState → UsageState) (s : Storage) (today : String) :
    readStateFromStorage (mutateCounts m s today).2 today = (mutateCounts m s today).1 := by
  rw [mutateCounts_snd, mutateCounts_fst, readState_persist, normalizeState_idem]

theorem tryIncrement_fst (t : UsageType) (s : Storage) (today : String) :
    (tryIncrementCount t s today).1 =
      decide ((readStateFromStorage s today).count t < getLimitForType t) :=
  rfl

theorem tryIncrement_storage (t : UsageType) (s : Storage) (today : String) :
    (tryIncrementCount t s today).2.2 =
      (mutateCounts
        (fun st => if st.count t ≥ getLimitForType t then st else st.setCount t (st.count t + 1))
        s today).2 :=
  rfl

/-- Writing a single in-range counter into a well-formed state commutes with
normalisation. -/
theorem normalize_setCount_of_wf (st : UsageState) (today : String) (t : UsageType) (v : Int)
    (hd : st.date = today)
    (hg0 : 0 ≤ st.generations) (hg : st.generations ≤ MAX_DAILY_GENERATIONS)
    (hi0 : 0 ≤ st.images) (hi : st.images ≤ MAX_DAILY_IMAGES)
    (hv0 : 0 ≤ v) (hv : v ≤ getLimitForType t) :
    normalizeState (st.setCount t v).toRaw today = st.setCount t v := by
  cases t with
  | generations => exact normalizeState_toRaw_of_wf _ _ hd hv0 hv hi0 hi
  | images => exact normalizeState_toRaw_of_wf _ _ hd hg0 hg hv0 hv

/-- Effective stored count after `tryIncrementCount`: unchanged at the limit,
otherwise one greater. -/
theorem tryIncrement_readState (t : UsageType) (s : Storage) (today : String) :
    readStateFromStorage (tryIncrementCount t s today).2.2 today =
      (if (readStateFromStorage s today).count t ≥ getLimitForType t then
        readStateFromStorage s today
      else
        (readStateFromStorage s today).setCount t ((readStateFromStorage s today).count t + 1)) := by
  rw [tryIncrement_storage, readState_after_mutate, mutateCounts_fst]
  obtain ⟨h1, h2, h3, h4, h5⟩ := readState_wf_parts s today
  by_cases h : (readStateFromStorage s today).count t ≥ getLimitForType t
  · rw [if_pos h]
    exact readState_norm s today
  · rw [if_neg h]
    have hcnt := readState_wf s today t
    exact normalize_setCount_of_wf _ _ _ _ h1 h2 h3 h4 h5 (by omega) (by omega)

/-- Effective stored count after `decrementCount`: floor-clamped decrement. -/
theorem decrement_readState (t : UsageType) (s : Storage) (today : String) :
    readStateFromStorage (decrementCount t s today).2 today =
      (readStateFromStorage s today).setCount t
        (max 0 ((readStateFromStorage s today).count t - 1)) := by
  unfold decrementCount
  rw [readState_after_mutate, mutateCounts_fst]
  obtain ⟨h1, h2, h3, h4, h5⟩ := readState_wf_parts s today
  have hcnt := readState_wf s today t
  exact normalize_setCount_of_wf _ _ _ _ h1 h2 h3 h4 h5 (by omega) (by omega)

/-- Iterated pure reads return the same value every time and leave the
storage untouched. -/
theorem readMany_spec (today : String) (n : Nat) (s : Storage) :
    (readMany s today n).1 = List.replicate n (readStateFromStorage s today) ∧
      (readMany s today n).2 = s := by
  induction n with
  | zero => exact ⟨rfl, rfl⟩
  | succ k ih =>
    unfold readMany readOnly
    dsimp only
    rw [ih.1, ih.2]
    exact ⟨rfl, rfl⟩

theorem mutate_main (m : UsageState → UsageState) (s : Storage) (today : String) :
    (mutateCounts m s today).2.main =
      some (readStateFromStorage (mutateCounts m s today).2 today).toRaw := by
  rw [readState_after_mutate, mutateCounts_snd, mutateCounts_fst]
  rfl

/-- Every storage produced by a quota operation carries, in the persisted
blob, exactly the state the read path returns for it. -/
theorem applyOp_main (t : UsageType) (op : QuotaOp) (s : Storage) (today : String) :
    (applyOp t op s today).main =
      some (readStateFromStorage (applyOp t op s today) today).toRaw := by
  cases op with
  | tryIncr =>
    exact mutate_main
      (fun st => if st.count t ≥ getLimitForType t then st else st.setCount t (st.count t + 1))
      s today
  | decr =>
    exact mutate_main (fun st => st.setCount t (max 0 (st.count t - 1))) s today

theorem runOps_main (t : UsageType) (ops : List QuotaOp) (s : Storage) (today : String)
    (h : ops ≠ []) :
    (runOps t ops s today).main =
      some (readStateFromStorage (runOps t ops s today) today).toRaw := by
  induction ops generalizing s with
  | nil => exact absurd rfl h
  | cons op rest ih =>
    unfold runOps
    cases rest with
    | nil => exact applyOp_main t op s today
    | cons op2 rest2 => exact ih (applyOp t op s today) (by simp)

/-- A successful reservation followed by the compensating decrement restores
the stored count. -/
theorem tryIncr_then_decr_restores (t : UsageType) (s : Storage) (today : String)
    (h : (tryIncrementCount t s today).1 = true) :
    (readStateFromStorage
        (decrementCount t (tryIncrementCount t s today).2.2 today).2 today).count t
      = (readStateFromStorage s today).count t := by
  have hlt : (readStateFromStorage s today).count t < getLimitForType t := by
    rw [tryIncrement_fst] at h
    exact of_decide_eq_true h
  have hcnt := readState_wf s today t
  rw [decrement_readState, count_setCount_self, tryIncrement_readState, if_neg (by omega),
    count_setCount_self]
  omega

end UsageTracker

open UsageTracker in
/-- C1: for every usage state and kind, `tryIncrementCount` returns `false`
and leaves the stored count (as observed through the normalising read path)
unchanged when that count already equals the configured daily limit, and
otherwise returns `true` and leaves the stored count exactly one greater. -/
theorem claim1_tryIncrement_admission (t : UsageType) (s : Storage) (today : String) :
    ((readStateFromStorage s today).count t = getLimitForType t →
      (tryIncrementCount t s today).1 = false ∧
        (readStateFromStorage (tryIncrementCount t s today).2.2 today).count t
          = (readStateFromStorage s today).count t) ∧
    ((readStateFromStorage s today).count t ≠ getLimitForType t →
      (tryIncrementCount t s today).1 = true ∧
        (readStateFromStorage (tryIncrementCount t s today).2.2 today).count t
          = (readStateFromStorage s today).count t + 1) := by
  have hcnt := readState_wf s today t
  constructor
  · intro hlim
    have hge : (readStateFromStorage s today).count t ≥ getLimitForType t := le_of_eq hlim.symm
    constructor
    · rw [tryIncrement_fst]
      simp only [decide_eq_false_iff_not]
      omega
    · rw [tryIncrement_readState, if_pos hge]
  · intro hne
    have hlt : (readStateFromStorage s today).count t < getLimitForType t := by omega
    constructor
    · rw [tryIncrement_fst]
      simp [hlt]
    · rw [tryIncrement_readState, if_neg (by omega), count_setCount_self]

open UsageTracker in
/-- Witness for C1: a counter at the limit (5 generations) is refused and a
counter below the limit is admitted. -/
theorem claim1_tryIncrement_admission_witness :
    (tryIncrementCount UsageType.generations
      ⟨some ⟨some "Tue Jan 02 2024", some 5, some 3⟩, none, none, none⟩ "Tue Jan 02 2024").1
        = false ∧
    (tryIncrementCount UsageType.generations
      ⟨some ⟨some "Tue Jan 02 2024", some 2, some 3⟩, none, none, none⟩ "Tue Jan 02 2024").1
        = true := by
  constructor
  · exact ((claim1_tryIncrement_admission UsageType.generations
      ⟨some ⟨some "Tue Jan 02 2024", some 5, some 3⟩, none, none, none⟩ "Tue Jan 02 2024").1
      (by decide)).1
  · exact ((claim1_tryIncrement_admission UsageType.generations
      ⟨some ⟨some "Tue Jan 02 2024", some 2, some 3⟩, none, none, none⟩ "Tue Jan 02 2024").2
      (by decide)).1

open UsageTracker in
/-- C2: along any same-day sequence of `tryIncrementCount` and
`decrementCount` calls on one kind, started from any stored state, the stored
count for that kind stays between 0 and the configured limit (5 for
generations, 20 for images); after any non-empty sequence the persisted blob
is exactly the serialisation of that in-range state. -/
theorem claim2_quota_bounds (t : UsageType) (ops : List QuotaOp) (s : Storage) (today : String) :
    (0 ≤ (readStateFromStorage (runOps t ops s today) today).count t ∧
      (readStateFromStorage (runOps t ops s today) today).count t ≤ getLimitForType t) ∧
    (ops ≠ [] →
      (runOps t ops s today).main =
        some (readStateFromStorage (runOps t ops s today) today).toRaw) ∧
    getLimitForType UsageType.generations = 5 ∧ getLimitForType UsageType.images = 20 := by
  exact ⟨⟨(readState_wf _ _ t).2.1, (readState_wf _ _ t).2.2⟩,
    fun h => runOps_main t ops s today h, by decide, by decide⟩

open UsageTracker in
/-- Witness for C2: a concrete sequence (increment, then two compensating
decrements, one hitting the floor) against empty storage. -/
theorem claim2_quota_bounds_witness :
    (0 ≤ (readStateFromStorage
        (runOps UsageType.images [QuotaOp.tryIncr, QuotaOp.decr, QuotaOp.decr]
          ⟨none, none, none, none⟩ "d") "d").count UsageType.images ∧
      (readStateFromStorage
        (runOps UsageType.images [QuotaOp.tryIncr, QuotaOp.decr, QuotaOp.decr]
          ⟨none, none, none, none⟩ "d") "d").count UsageType.images
        ≤ getLimitForType UsageType.images) ∧
    (runOps UsageType.images [QuotaOp.tryIncr, QuotaOp.decr, QuotaOp.decr]
        ⟨none, none, none, none⟩ "d").main =
      some (readStateFromStorage
        (runOps UsageType.images [QuotaOp.tryIncr, QuotaOp.decr, QuotaOp.decr]
          ⟨none, none, none, none⟩ "d") "d").toRaw := by
  have h := claim2_quota_bounds UsageType.images [QuotaOp.tryIncr, QuotaOp.decr, QuotaOp.decr]
    ⟨none, none, none, none⟩ "d"
  exact ⟨h.1, h.2.1 (by simp)⟩

open UsageTracker in
/-- C3: when the stored blob carries a date other than today, the read path
returns the zeroed state for today, repeated reads before any write all
return that same zeroed state, and the read itself leaves the storage
untouched (the reset is not persisted). -/
theorem claim3_rollover_idempotent (raw : RawState) (ld : Option String) (lg li : Option Int)
    (today : String) (n : Nat) (h : raw.date ≠ some today) :
    readStateFromStorage ⟨some raw, ld, lg, li⟩ today = zeroState today ∧
      (readMany ⟨some raw, ld, lg, li⟩ today n).1 = List.replicate n (zeroState today) ∧
      (readMany ⟨some raw, ld, lg, li⟩ today n).2 = ⟨some raw, ld, lg, li⟩ := by
  have hread : readStateFromStorage ⟨some raw, ld, lg, li⟩ today = zeroState today := by
    show normalizeState raw today = zeroState today
    unfold normalizeState
    rw [if_pos h]
  obtain ⟨h1, h2⟩ := readMany_spec today n ⟨some raw, ld, lg, li⟩
  exact ⟨hread, by rw [h1, hread], h2⟩

open UsageTracker in
/-- Witness for C3: yesterday at both limits rolls over to zero across three
reads without a write. -/
theorem claim3_rollover_idempotent_witness :
    readStateFromStorage
        ⟨some ⟨some "Mon Jan 01 2024", some 5, some 20⟩, none, none, none⟩ "Tue Jan 02 2024"
      = zeroState "Tue Jan 02 2024" ∧
    (readMany ⟨some ⟨some "Mon Jan 01 2024", some 5, some 20⟩, none, none, none⟩
        "Tue Jan 02 2024" 3).1 = List.replicate 3 (zeroState "Tue Jan 02 2024") ∧
    (readMany ⟨some ⟨some "Mon Jan 01 2024", some 5, some 20⟩, none, none, none⟩
        "Tue Jan 02 2024" 3).2
      = ⟨some ⟨some "Mon Jan 01 2024", some 5, some 20⟩, none, none, none⟩ :=
  claim3_rollover_idempotent ⟨some "Mon Jan 01 2024", some 5, some 20⟩ none none none
    "Tue Jan 02 2024" 3 (by decide)

open UsageTracker in
/-- C4: a `tryIncrementCount` that returned `true`, followed immediately by a
same-day `decrementCount` on the same kind, restores the stored count to its
value before the `tryIncrementCount` call. -/
theorem claim4_compensation_symmetry (t : UsageType) (s : Storage) (today : String)
    (h : (tryIncrementCount t s today).1 = true) :
    (readStateFromStorage
        (decrementCount t (tryIncrementCount t s today).2.2 today).2 today).count t
      = (readStateFromStorage s today).count t :=
  tryIncr_then_decr_restores t s today h

open UsageTracker in
/-- Witness for C4: reserving the third generation of the day and undoing it
lands back on 2. -/
theorem claim4_compensation_symmetry_witness :
    (tryIncrementCount UsageType.generations
        ⟨some ⟨some "Tue Jan 02 2024", some 2, some 3⟩, none, none, none⟩ "Tue Jan 02 2024").1
      = true ∧
    (readStateFromStorage
        (decrementCount UsageType.generations
          (tryIncrementCount UsageType.generations
            ⟨some ⟨some "Tue Jan 02 2024", some 2, some 3⟩, none, none, none⟩
            "Tue Jan 02 2024").2.2 "Tue Jan 02 2024").2 "Tue Jan 02 2024").count
        UsageType.generations
      = (readStateFromStorage
          ⟨some ⟨some "Tue Jan 02 2024", some 2, some 3⟩, none, none, none⟩
          "Tue Jan 02 2024").count UsageType.generations :=
  ⟨by decide,
    claim4_compensation_symmetry UsageType.generations
      ⟨some ⟨some "Tue Jan 02 2024", some 2, some 3⟩, none, none, none⟩ "Tue Jan 02 2024"
      (by decide)⟩

open UsageTracker Orchestrator in
/-- C5: in both orchestrator handlers, whenever a quota slot was reserved via
`tryIncrementCount('generations')` and the generation body then throws before
the commit point, `decrementCount('generations')` runs exactly once and the
stored generations count is restored; a committed run, a refused reservation,
and the quota-free weekly-blueprint flow perform no decrement. -/
theorem claim5_generation_rollback (flow : PlanFlow) (hasBlueprint bodyFails : Bool)
    (s : Storage) (today : String) :
    ((flow ≠ PlanFlow.k12weekly →
        (tryIncrementCount UsageType.generations s today).1 = true → bodyFails = true →
        (handleCreatePlan flow bodyFails s today).decrements = 1 ∧
        (handleCreatePlan flow bodyFails s today).result = PlanResult.failed ∧
        (readStateFromStorage (handleCreatePlan flow bodyFails s today).storage today).count
            UsageType.generations
          = (readStateFromStorage s today).count UsageType.generations) ∧
      ((handleCreatePlan flow bodyFails s today).result = PlanResult.committed →
        (handleCreatePlan flow bodyFails s today).decrements = 0) ∧
      ((tryIncrementCount UsageType.generations s today).1 = false →
        (handleCreatePlan flow bodyFails s today).decrements = 0) ∧
      (flow = PlanFlow.k12weekly → (handleCreatePlan flow bodyFails s today).decrements = 0)) ∧
    ((hasBlueprint = true →
        (tryIncrementCount UsageType.generations s today).1 = true → bodyFails = true →
        (handleGenerateDailySlides hasBlueprint bodyFails s today).decrements = 1 ∧
        (handleGenerateDailySlides hasBlueprint bodyFails s today).result = PlanResult.failed ∧
        (readStateFromStorage
            (handleGenerateDailySlides hasBlueprint bodyFails s today).storage today).count
            UsageType.generations
          = (readStateFromStorage s today).count UsageType.generations) ∧
      ((handleGenerateDailySlides hasBlueprint bodyFails s today).result = PlanResult.committed →
        (handleGenerateDailySlides hasBlueprint bodyFails s today).decrements = 0) ∧
      ((tryIncrementCount UsageType.generations s today).1 = false →
        (handleGenerateDailySlides hasBlueprint bodyFails s today).decrements = 0) ∧
      (hasBlueprint = false →
        (handleGenerateDailySlides hasBlueprint bodyFails s today).decrements = 0)) := by
  refine ⟨⟨?_, ?_, ?_, ?_⟩, ⟨?_, ?_, ?_, ?_⟩⟩
  · intro hf hr hb
    have hrestore := tryIncr_then_decr_restores UsageType.generations s today hr
    cases flow with
    | college =>
      refine ⟨by simp [handleCreatePlan, hr, hb], by simp [handleCreatePlan, hr, hb], ?_⟩
      simpa [handleCreatePlan, hr, hb] using hrestore
    | k12single =>
      refine ⟨by simp [handleCreatePlan, hr, hb], by simp [handleCreatePlan, hr, hb], ?_⟩
      simpa [handleCreatePlan, hr, hb] using hrestore
    | k12weekly => exact absurd rfl hf
  · intro hc
    cases flow <;> cases hb : bodyFails <;>
      cases hr1 : (tryIncrementCount UsageType.generations s today).1 <;>
      simp_all [handleCreatePlan]
  · intro hr0
    cases flow <;> cases hb : bodyFails <;> simp [handleCreatePlan, hr0, hb]
  · intro hw
    subst hw
    cases hb : bodyFails <;> simp [handleCreatePlan, hb]
  · intro hbp hr hb
    have hrestore := tryIncr_then_decr_restores UsageType.generations s today hr
    subst hbp
    refine ⟨by simp [handleGenerateDailySlides, hr, hb],
      by simp [handleGenerateDailySlides, hr, hb], ?_⟩
    simpa [handleGenerateDailySlides, hr, hb] using hrestore
  · intro hc
    cases hbp : hasBlueprint <;> cases hb : bodyFails <;>
      cases hr1 : (tryIncrementCount UsageType.generations s today).1 <;>
      simp_all [handleGenerateDailySlides]
  · intro hr0
    cases hbp : hasBlueprint <;> cases hb : bodyFails <;>
      simp [handleGenerateDailySlides, hr0, hb, hbp]
  · intro hbp
    subst hbp
    simp [handleGenerateDailySlides]

open UsageTracker Orchestrator in
/-- Witness for C5: with two of five generations used, a failing college run
decrements exactly once back to two, and a committed run decrements zero
times. -/
theorem claim5_generation_rollback_witness :
    ((handleCreatePlan PlanFlow.college true
        ⟨some ⟨some "Tue Jan 02 2024", some 2, some 3⟩, none, none, none⟩
        "Tue Jan 02 2024").decrements = 1 ∧
      (handleCreatePlan PlanFlow.college true
        ⟨some ⟨some "Tue Jan 02 2024", some 2, some 3⟩, none, none, none⟩
        "Tue Jan 02 2024").result = PlanResult.failed ∧
      (readStateFromStorage
          (handleCreatePlan PlanFlow.college true
            ⟨some ⟨some "Tue Jan 02 2024", some 2, some 3⟩, none, none, none⟩
            "Tue Jan 02 2024").storage "Tue Jan 02 2024").count UsageType.generations
        = (readStateFromStorage
            ⟨some ⟨some "Tue Jan 02 2024", some 2, some 3⟩, none, none, none⟩
            "Tue Jan 02 2024").count UsageType.generations) ∧
    (handleGenerateDailySlides true false
        ⟨some ⟨some "Tue Jan 02 2024", some 2, some 3⟩, none, none, none⟩
        "Tue Jan 02 2024").decrements = 0 :=
  ⟨((claim5_generation_rollback PlanFlow.college true true
      ⟨some ⟨some "Tue Jan 02 2024", some 2, some 3⟩, none, none, none⟩
      "Tue Jan 02 2024").1.1 (by decide) (by decide) rfl),
    ((claim5_generation_rollback PlanFlow.college true false
      ⟨some ⟨some "Tue Jan 02 2024", some 2, some 3⟩, none, none, none⟩
      "Tue Jan 02 2024").2.2.1 (by decide))⟩

namespace Gemini

theorem modelLoopGo_trace (f : String → Option GenError) :
    ∀ (models : List String) (lastErr : Option GenError),
      (modelLoopGo f models lastErr).2
        = models.take (models.findIdx (fun m => (f m).isNone) + 1) := by
  intro models
  induction models with
  | nil => intro lastErr; rfl
  | cons m rest ih =>
    intro lastErr
    cases hm : f m with
    | none => simp [modelLoopGo, hm, List.findIdx_cons]
    | some e => simp [modelLoopGo, hm, List.findIdx_cons, ih (some e)]

theorem modelLoopGo_ok (f : String → Option GenError) :
    ∀ (l₁ : List String) (m : String) (l₂ : List String) (lastErr : Option GenError),
      (∀ b ∈ l₁, f b ≠ none) → f m = none →
      (modelLoopGo f (l₁ ++ m :: l₂) lastErr).1 = Except.ok m := by
  intro l₁
  induction l₁ with
  | nil =>
    intro m l₂ lastErr _ hm
    simp [modelLoopGo, hm]
  | cons b rest ih =>
    intro m l₂ lastErr hfail hm
    cases hbe : f b with
    | none => exact absurd hbe (hfail b (by simp))
    | some e =>
      simp only [List.cons_append, modelLoopGo, hbe]
      exact ih m l₂ (some e) (fun x hx => hfail x (by simp [hx])) hm

theorem modelLoopGo_allFail (f : String → Option GenError) :
    ∀ (models : List String) (lastErr : Option GenError) (m : String) (e : GenError),
      (∀ b ∈ models, f b ≠ none) → models.getLast? = some m → f m = some e →
      (modelLoopGo f models lastErr).1 = Except.error e := by
  intro models
  induction models with
  | nil =>
    intro lastErr m e _ hlast
    simp at hlast
  | cons b rest ih =>
    intro lastErr m e hfail hlast hme
    cases hbe : f b with
    | none => exact absurd hbe (hfail b (by simp))
    | some eb =>
      cases rest with
      | nil =>
        simp at hlast
        subst hlast
        rw [hme] at hbe
        injection hbe with hbe2
        subst hbe2
        simp [modelLoopGo, hme]
      | cons c rest2 =>
        have hlast2 : (c :: rest2).getLast? = some m := by
          rw [List.getLast?_cons_cons] at hlast
          exact hlast
        simp only [modelLoopGo, hbe]
        exact ih (some eb) m e (fun x hx => hfail x (by simp [hx])) hlast2 hme

theorem serverCall_trace (f : String → Option GenError) (models : List String) :
    (serverCall f models).2 = models.take (models.findIdx (fun m => (f m).isNone) + 1) := by
  unfold serverCall
  exact modelLoopGo_trace f models none

theorem serverCall_ok (f : String → Option GenError) (l₁ : List String) (m : String)
    (l₂ : List String) (hfail : ∀ b ∈ l₁, f b ≠ none) (hm : f m = none) :
    (serverCall f (l₁ ++ m :: l₂)).1 = Except.ok m := by
  unfold serverCall
  dsimp only
  rw [modelLoopGo_ok f l₁ m l₂ none hfail hm]

theorem serverCall_allFail (f : String → Option GenError) (models : List String) (m : String)
    (e : GenError) (hfail : ∀ b ∈ models, f b ≠ none) (hlast : models.getLast? = some m)
    (hme : f m = some e) :
    (serverCall f models).1 = Except.error (errorHttpStatus e, e.message) := by
  unfold serverCall
  dsimp only
  rw [modelLoopGo_allFail f models none m e hfail hlast hme]

/-- The bounded retry loop is exactly its three-attempt unrolling. -/
theorem callGeminiProxy_eq_spec (outcome : Nat → String → Option GenError)
    (models : List String) (jitter : Nat → Nat) :
    callGeminiProxy outcome models jitter = clientRetrySpec outcome models jitter := by
  unfold callGeminiProxy clientRetrySpec
  simp only [callGo]
  cases h1 : (serverCall (outcome 1) models).1 with
  | ok m => simp [h1]
  | error e1 =>
    cases hr1 : shouldRetryProxyError (some e1.1) e1.2 with
    | false => simp [h1, hr1]
    | true =>
      cases h2 : (serverCall (outcome 2) models).1 with
      | ok m => simp [h1, h2, hr1, List.append_assoc]
      | error e2 =>
        cases hr2 : shouldRetryProxyError (some e2.1) e2.2 with
        | false => simp [h1, h2, hr1, hr2]
        | true =>
          cases h3 : (serverCall (outcome 3) models).1 with
          | ok m => simp [h1, h2, h3, hr1, hr2, List.append_assoc]
          | error e3 => simp [h1, h2, h3, hr1, hr2, List.append_assoc]

end Gemini

open Gemini in
/-- C6 (amended): each proxy invocation runs the ordered model list once —
models are invoked in order up to and including the first success, any
failure moves to the next model, and when every model fails the surfaced
error is the last model's error mapped through the catch block.  The client
then repeats the whole invocation, at most 3 times in total, sleeping
`min(3200, 800·2^(attempt-1)) + jitter` ms before each repeat, exactly while
the surfaced error is retryable (HTTP 429/500/502/503/504 or a message
containing UNAVAILABLE / HIGH DEMAND / TRY AGAIN LATER); a non-retryable
surfaced error ends the whole call immediately with that error. -/
theorem claim6_retry_discipline (outcome : Nat → String → Option GenError)
    (models : List String) (jitter : Nat → Nat) :
    callGeminiProxy outcome models jitter = clientRetrySpec outcome models jitter ∧
    (∀ f : String → Option GenError,
      (serverCall f models).2 = models.take (models.findIdx (fun m => (f m).isNone) + 1)) ∧
    (∀ (f : String → Option GenError) (l₁ : List String) (m : String) (l₂ : List String),
      models = l₁ ++ m :: l₂ → (∀ b ∈ l₁, f b ≠ none) → f m = none →
      (serverCall f models).1 = Except.ok m) ∧
    (∀ (f : String → Option GenError) (m : String) (e : GenError),
      (∀ b ∈ models, f b ≠ none) → models.getLast? = some m → f m = some e →
      (serverCall f models).1 = Except.error (errorHttpStatus e, e.message)) := by
  refine ⟨callGeminiProxy_eq_spec outcome models jitter, fun f => serverCall_trace f models,
    ?_, ?_⟩
  · intro f l₁ m l₂ hsplit hfail hm
    subst hsplit
    exact serverCall_ok f l₁ m l₂ hfail hm
  · intro f m e hfail hlast hme
    exact serverCall_allFail f models m e hfail hlast hme

open Gemini in
/-- Witness for C6: the concrete two-model scenario evaluated through the
amended theorem — the loop equals its unrolling, the first attempt invokes
both models and surfaces the 503 of the last model, and the second attempt
succeeds on the first model. -/
theorem claim6_retry_discipline_witness :
    callGeminiProxy cexOutcome ["model-a", "model-b"] (fun _ => 0)
      = clientRetrySpec cexOutcome ["model-a", "model-b"] (fun _ => 0) ∧
    (serverCall (cexOutcome 1) ["model-a", "model-b"]).1
      = Except.error (503, "service unavailable") ∧
    (serverCall (cexOutcome 2) ["model-a", "model-b"]).1 = Except.ok "model-a" := by
  have h := claim6_retry_discipline cexOutcome ["model-a", "model-b"] (fun _ => 0)
  refine ⟨h.1, ?_, ?_⟩
  · have := h.2.2.2 (cexOutcome 1) "model-b" ⟨some 503, "service unavailable"⟩
      (by decide) (by decide) (by decide)
    simpa using this
  · exact h.2.2.1 (cexOutcome 2) [] "model-a" ["model-b"] rfl (by simp) (by decide)

open Gemini in
/-- Counterexample for C6 as stated: the claim says a non-retryable failure
of a model is not retried (each model gets its own retry budget and a
non-retryable failure moves on).  In the code the retry loop wraps the whole
model list, so when the first attempt surfaces a retryable error from a later
model, an earlier model whose failure was non-retryable is invoked again on
the next attempt: with models `[model-a, model-b]`, model-a failing with a
non-retryable 400 and model-b with a retryable 503 on attempt 1, attempt 2
invokes model-a again. -/
theorem claim6_per_model_retry_counterexample :
    ¬ ∀ (outcome : Nat → String → Option GenError) (models : List String)
        (jitter : Nat → Nat) (a a' : Nat) (m : String) (e : GenError),
        (a, m) ∈ (callGeminiProxy outcome models jitter).trace →
        outcome a m = some e →
        shouldRetryProxyError e.status e.message = false →
        (a', m) ∈ (callGeminiProxy outcome models jitter).trace →
        a' ≤ a := by
  intro h
  have := h cexOutcome ["model-a", "model-b"] (fun _ => 0) 1 2 "model-a"
    ⟨some 400, "bad request"⟩ (by decide) (by decide) (by decide) (by decide)
  omega

open OpenImages in
/-- C7: a query of at least 3 tokens and a candidate whose combined
title+description+tags text contains none of the query tokens gets
confidence exactly 0 from `computeConfidence`, whatever its provider,
resolution, educational, phrase or domain boosts would contribute. -/
theorem claim7_zero_coverage (queryTokens : List String) (image : OpenImageCandidate)
    (domain : Option String) (isSpaceTopic : Bool)
    (hlen : 3 ≤ queryTokens.length)
    (hnone : ∀ tok ∈ queryTokens, StrUtil.strContains (combinedText image) tok = false) :
    computeConfidence queryTokens image domain isSpaceTopic = 0 := by
  unfold computeConfidence
  rw [if_neg (by omega)]
  by_cases hc : combinedText image = ""
  · rw [if_pos hc]
  · rw [if_neg hc]
    have hfilter :
        queryTokens.filter (fun tok => StrUtil.strContains (combinedText image) tok) = [] := by
      apply List.filter_eq_nil_iff.mpr
      intro a ha
      simp [hnone a ha]
    dsimp only
    rw [hfilter]
    rw [if_pos ⟨hlen, rfl⟩]

open OpenImages in
/-- Witness for C7: the balloons candidate scores exactly 0 against the
four-token salt-water query (spec Scenario B). -/
theorem claim7_zero_coverage_witness :
    computeConfidence ["homogeneous", "mixture", "salt", "water"] cexBalloons
      (some "chemistry") false = 0 :=
  claim7_zero_coverage ["homogeneous", "mixture", "salt", "water"] cexBalloons
    (some "chemistry") false (by decide) (by decide)

namespace OpenImages

theorem mergeGo_sublist (l : List OpenImageCandidate) :
    ∀ seen : List String, (mergeGo l seen).Sublist l := by
  induction l with
  | nil => intro seen; simp [mergeGo]
  | cons a t ih =>
    intro seen
    rw [mergeGo]
    by_cases h : dedupeKey a = "" || seen.contains (dedupeKey a)
    · rw [if_pos h]
      exact (ih seen).cons a
    · rw [if_neg h]
      exact (ih _).cons₂ a

theorem mergeGo_keys (l : List OpenImageCandidate) :
    ∀ seen : List String,
      ((mergeGo l seen).map dedupeKey).Nodup ∧
        ∀ c ∈ mergeGo l seen, dedupeKey c ∉ seen ∧ dedupeKey c ≠ "" := by
  induction l with
  | nil => intro seen; simp [mergeGo]
  | cons a t ih =>
    intro seen
    rw [mergeGo]
    by_cases h : dedupeKey a = "" || seen.contains (dedupeKey a)
    · rw [if_pos h]
      exact ih seen
    · rw [if_neg h]
      have ha : ¬ dedupeKey a = "" ∧ dedupeKey a ∉ seen := by
        constructor
        · intro hx
          exact h (by simp [hx])
        · intro hx
          exact h (by simp [hx])
      obtain ⟨hnd, hmem⟩ := ih (dedupeKey a :: seen)
      constructor
      · rw [List.map_cons]
        apply List.nodup_cons.mpr
        refine ⟨?_, hnd⟩
        intro hin
        obtain ⟨c, hc, hkey⟩ := List.mem_map.mp hin
        exact (hmem c hc).1 (by simp [hkey])
      · intro c hc
        rcases List.mem_cons.mp hc with hca | hct
        · subst hca
          exact ⟨ha.2, ha.1⟩
        · obtain ⟨hnotin, hne⟩ := hmem c hct
          exact ⟨fun hs => hnotin (List.mem_cons_of_mem _ hs), hne⟩

theorem mem_mergeGo (c : OpenImageCandidate) (l : List OpenImageCandidate) :
    ∀ seen : List String,
      c ∈ mergeGo l seen ↔
        dedupeKey c ≠ "" ∧ dedupeKey c ∉ seen ∧
          ∃ l₁ l₂, l = l₁ ++ c :: l₂ ∧ ∀ b ∈ l₁, dedupeKey b ≠ dedupeKey c := by
  induction l with
  | nil =>
    intro seen
    simp only [mergeGo, List.not_mem_nil, false_iff]
    rintro ⟨-, -, l₁, l₂, h, -⟩
    exact absurd h (by simp)
  | cons a t ih =>
    intro seen
    rw [mergeGo]
    by_cases h : dedupeKey a = "" || seen.contains (dedupeKey a)
    · rw [if_pos h]
      have ha : dedupeKey a = "" ∨ dedupeKey a ∈ seen := by
        rcases Bool.or_eq_true_iff.mp h with h1 | h1
        · exact Or.inl (by simpa using h1)
        · exact Or.inr (List.elem_iff.mp h1)
      rw [ih seen]
      constructor
      · rintro ⟨h1, h2, l₁, l₂, hsplit, hfirst⟩
        refine ⟨h1, h2, a :: l₁, l₂, by simp [hsplit], ?_⟩
        intro b hb
        rcases List.mem_cons.mp hb with hba | hbl
        · subst hba
          rcases ha with hae | has
          · rw [hae]
            exact fun hx => h1 hx.symm
          · exact fun hx => h2 (hx ▸ has)
        · exact hfirst b hbl
      · rintro ⟨h1, h2, l₁, l₂, hsplit, hfirst⟩
        cases l₁ with
        | nil =>
          injection hsplit with hac ht
          subst hac
          rcases ha with hae | has
          · exact absurd hae h1
          · exact absurd has h2
        | cons x l₁ =>
          injection hsplit with hax ht
          subst hax
          exact ⟨h1, h2, l₁, l₂, ht, fun b hb => hfirst b (List.mem_cons_of_mem _ hb)⟩
    · rw [if_neg h]
      have ha : ¬ dedupeKey a = "" ∧ dedupeKey a ∉ seen := by
        constructor
        · intro hx
          exact h (by simp [hx])
        · intro hx
          exact h (by simp [hx])
      constructor
      · intro hc
        rcases List.mem_cons.mp hc with hca | hct
        · subst hca
          exact ⟨ha.1, ha.2, [], t, rfl, by simp⟩
        · obtain ⟨h1, h2, l₁, l₂, hsplit, hfirst⟩ := (ih (dedupeKey a :: seen)).mp hct
          have h2' : dedupeKey c ∉ seen := fun hs => h2 (List.mem_cons_of_mem _ hs)
          have hne : dedupeKey a ≠ dedupeKey c := by
            intro hx
            exact h2 (by simp [hx])
          exact ⟨h1, h2', a :: l₁, l₂, by simp [hsplit], by
            intro b hb
            rcases List.mem_cons.mp hb with hba | hbl
            · subst hba; exact hne
            · exact hfirst b hbl⟩
      · rintro ⟨h1, h2, l₁, l₂, hsplit, hfirst⟩
        cases l₁ with
        | nil =>
          injection hsplit with hac ht
          subst hac
          exact List.mem_cons_self a _
        | cons x l₁ =>
          injection hsplit with hax ht
          subst hax
          have hne : dedupeKey c ≠ dedupeKey a := fun hx => (hfirst a (by simp)) hx.symm
          refine List.mem_cons_of_mem a ?_
          apply (ih (dedupeKey a :: seen)).mpr
          refine ⟨h1, ?_, l₁, l₂, ht, fun b hb => hfirst b (List.mem_cons_of_mem _ hb)⟩
          intro hs
          rcases List.mem_cons.mp hs with hx | hx
          · exact hne hx
          · exact h2 hx

end OpenImages

open OpenImages in
/-- C9 (amended): merging de-duplicates by `normalizeUrlKey` — which strips
the URL fragment and trims a trailing slash but keeps the query string — of
`url || thumbnail || id`; the output is a subsequence of the input, its keys
are distinct and non-empty, and a candidate is kept exactly when it is the
first occurrence of its key in input order. -/
theorem claim9_dedupe_first_wins (results : List OpenImageCandidate) :
    (mergeAndDedupeResults results).Sublist results ∧
    ((mergeAndDedupeResults results).map dedupeKey).Nodup ∧
    ∀ c, c ∈ mergeAndDedupeResults results ↔
      dedupeKey c ≠ "" ∧
        ∃ l₁ l₂, results = l₁ ++ c :: l₂ ∧ ∀ b ∈ l₁, dedupeKey b ≠ dedupeKey c := by
  refine ⟨mergeGo_sublist results [], (mergeGo_keys results []).1, ?_⟩
  intro c
  rw [mergeAndDedupeResults, mem_mergeGo]
  simp

open OpenImages in
/-- Witness for C9: two candidates whose URLs differ only in the fragment
collapse to one entry, and the first occurrence is the one kept. -/
theorem claim9_dedupe_first_wins_witness :
    cexImageA ∈ mergeAndDedupeResults [cexImageA, cexImageC] ∧
    cexImageC ∉ mergeAndDedupeResults [cexImageA, cexImageC] := by
  constructor
  · exact ((claim9_dedupe_first_wins [cexImageA, cexImageC]).2.2 cexImageA).mpr
      ⟨by decide, [], [cexImageC], rfl, by simp⟩
  · decide

open OpenImages in
/-- Counterexample for C9 as stated: the claim says the dedup key also
strips the query string.  `normalizeUrlKey` clears only the fragment
(`parsed.hash = ''`), so two candidates for the same resource that differ
only in their query strings are both kept, and the merged output carries a
duplicate under the spec-side key. -/
theorem claim9_query_string_counterexample :
    ¬ ∀ results : List OpenImageCandidate,
        ((mergeAndDedupeResults results).map
          (fun c => specUrlKey (dedupeKeySource c))).Nodup := by
  intro h
  have := h [cexImageA, cexImageB]
  revert this
  decide

namespace OpenImages

theorem walkPool_none_iff (ro : OpenImageCandidate → Option ResolvedImagePayload) :
    ∀ l : List RankedImage, (walkPool ro l).1 = none ↔ ∀ b ∈ l, ro b.cand = none := by
  intro l
  induction l with
  | nil => simp [walkPool]
  | cons c rest ih =>
    cases hc : ro c.cand with
    | some r => simp [walkPool, hc]
    | none => simp [walkPool, hc, ih]

theorem walkFallback_none_iff (ro : OpenImageCandidate → Option ResolvedImagePayload) :
    ∀ l : List OpenImageCandidate, (walkFallback ro l).1 = none ↔ ∀ b ∈ l, ro b = none := by
  intro l
  induction l with
  | nil => simp [walkFallback]
  | cons c rest ih =>
    cases hc : ro c with
    | some r => simp [walkFallback, hc]
    | none => simp [walkFallback, hc, ih]

theorem walkPool_found (ro : OpenImageCandidate → Option ResolvedImagePayload) :
    ∀ (l₁ : List RankedImage) (c : RankedImage) (l₂ : List RankedImage)
      (r : ResolvedImagePayload),
      (∀ b ∈ l₁, ro b.cand = none) → ro c.cand = some r →
      walkPool ro (l₁ ++ c :: l₂) = (some (c, r), (l₁ ++ [c]).map (fun b => b.cand)) := by
  intro l₁
  induction l₁ with
  | nil =>
    intro c l₂ r _ hc
    simp [walkPool, hc]
  | cons b t ih =>
    intro c l₂ r hfail hc
    have hb : ro b.cand = none := hfail b (by simp)
    have := ih c l₂ r (fun x hx => hfail x (by simp [hx])) hc
    simp [walkPool, hb, this]

end OpenImages

open OpenImages in
/-- C8: the resolver walks the admission pool — the candidates at or above
the 0.35 threshold in rank order, or the top 8 ranked candidates when none
reach the threshold — and the first candidate whose resolution yields a
proxy reference or embedded data terminates the walk and is returned, each
earlier failed candidate having been attempted exactly once before it; null
comes back only when every pool candidate failed (and, when a pool existed,
every last-resort candidate among the first 10 merged results failed as
well). -/
theorem claim8_resolver_pool_walk (nasaO fetchO : String → Option String)
    (ranked : List RankedImage) (merged : List OpenImageCandidate) :
    (∀ (l₁ : List RankedImage) (c : RankedImage) (l₂ : List RankedImage)
        (r : ResolvedImagePayload),
      candidatePool ranked = l₁ ++ c :: l₂ →
      (∀ b ∈ l₁, resolveUsableImage nasaO fetchO b.cand = none) →
      resolveUsableImage nasaO fetchO c.cand = some r →
      (selectImage (resolveUsableImage nasaO fetchO) ranked merged).1 = some (c, r) ∧
        (selectImage (resolveUsableImage nasaO fetchO) ranked merged).2
          = (l₁ ++ [c]).map (fun b => b.cand)) ∧
    ((selectImage (resolveUsableImage nasaO fetchO) ranked merged).1 = none →
      (∀ b ∈ candidatePool ranked, resolveUsableImage nasaO fetchO b.cand = none) ∧
      (candidatePool ranked ≠ [] →
        ∀ b ∈ merged.take 10, resolveUsableImage nasaO fetchO b = none)) ∧
    ((ranked.filter (fun c => (0.35 : ℚ) ≤ c.confidence)).take 8 ≠ [] →
      candidatePool ranked = (ranked.filter (fun c => (0.35 : ℚ) ≤ c.confidence)).take 8) ∧
    ((ranked.filter (fun c => (0.35 : ℚ) ≤ c.confidence)).take 8 = [] →
      candidatePool ranked = ranked.take 8) := by
  refine ⟨?_, ?_, ?_, ?_⟩
  · intro l₁ c l₂ r hpool hfail hc
    have hpoolne : ¬ (candidatePool ranked).isEmpty = true := by
      rw [hpool]
      simp
    unfold selectImage
    rw [if_neg hpoolne, hpool, walkPool_found (resolveUsableImage nasaO fetchO) l₁ c l₂ r
      hfail hc]
    exact ⟨rfl, rfl⟩
  · intro hnone
    by_cases hp : (candidatePool ranked).isEmpty = true
    · have hempty : candidatePool ranked = [] := List.isEmpty_iff.mp hp
      constructor
      · intro b hb
        rw [hempty] at hb
        exact absurd hb (List.not_mem_nil b)
      · intro hne
        exact absurd hempty hne
    · unfold selectImage at hnone
      rw [if_neg hp] at hnone
      dsimp only at hnone
      cases hw : (walkPool (resolveUsableImage nasaO fetchO) (candidatePool ranked)).1 with
      | some hit =>
        rw [hw] at hnone
        simp at hnone
      | none =>
        rw [hw] at hnone
        dsimp only at hnone
        refine ⟨(walkPool_none_iff _ _).mp hw, fun _ => ?_⟩
        exact (walkFallback_none_iff _ _).mp hnone
  · intro hvne
    unfold candidatePool
    rw [if_neg (by simpa using hvne)]
  · intro hve
    unfold candidatePool
    rw [if_pos (by simpa using hve)]

open OpenImages in
/-- Witness for C8: the top candidate fails to resolve (host not
allow-listed, server-side fetch fails) and the second resolves through the
proxy allow-list; the walk returns the second and attempted exactly the two
of them, in rank order. -/
theorem claim8_resolver_pool_walk_witness :
    resolveUsableImage wNoneOracle wNoneOracle wCand1 = none ∧
    (selectImage (resolveUsableImage wNoneOracle wNoneOracle) [wRank1, wRank2] []).2
      = [wCand1, wCand2] ∧
    (selectImage (resolveUsableImage wNoneOracle wNoneOracle) [wRank1, wRank2] []).1 ≠ none := by
  cases hr : resolveUsableImage wNoneOracle wNoneOracle wCand2 with
  | none => exact absurd hr (by decide)
  | some r =>
    have h := (claim8_resolver_pool_walk wNoneOracle wNoneOracle [wRank1, wRank2] []).1
      [wRank1] wRank2 [] r
      (by norm_num [candidatePool, wRank1, wRank2, wCand1, wCand2, List.filter])
      (by intro b hb; simp at hb; subst hb; decide) hr
    refine ⟨by decide, ?_, ?_⟩
    · rw [h.2]
      rfl
    · rw [h.1]
      simp

open OpenImages in
/-- C10 (amended): the multi-provider open-images handler answers 405 for a
non-GET method, 401 when app-store auth is enabled and no valid session is
presented, 400 for a missing or empty query, and in every other case 200 —
returning either a resolved image object or `{image: null}` — no matter what
the search backends return or how resolution goes. -/
theorem claim10_status_codes (method : String) (authEnabled sessionValid : Bool)
    (rawQuery rawLang : Option String) (searchResults : List OpenImageCandidate)
    (nasaO fetchO : String → Option String) :
    (openImagesHandler method authEnabled sessionValid rawQuery rawLang searchResults
        nasaO fetchO).1 =
      if method ≠ "GET" then 405
      else if authEnabled ∧ ¬ sessionValid then 401
      else if StrUtil.takeS (StrUtil.trimS (rawQuery.getD "")) 220 = "" then 400
      else 200 := by
  have hsel : ∀ (tokens : List String) (results : List OpenImageCandidate)
      (nO fO : String → Option String), (searchAndSelect tokens results nO fO).1 = 200 := by
    intro tokens results nO fO
    unfold searchAndSelect
    split
    · rfl
    · dsimp only
      split
      · rfl
      · split
        · rfl
        · rfl
  unfold openImagesHandler
  by_cases hm : method ≠ "GET"
  · rw [if_pos hm, if_pos hm]
  · rw [if_neg hm, if_neg hm]
    by_cases ha : authEnabled ∧ ¬ sessionValid
    · rw [if_pos ha, if_pos ha]
    · rw [if_neg ha, if_neg ha]
      dsimp only
      by_cases hq : StrUtil.takeS (StrUtil.trimS (rawQuery.getD "")) 220 = ""
      · rw [if_pos hq, if_pos hq]
      · rw [if_neg hq, if_neg hq]
        exact hsel _ _ _ _

open OpenImages in
/-- Counterexample for C10 as stated: the claim allows a non-200 status only
for a non-GET method or a missing query, but a well-formed GET whose query
tokenizes, sent while app-store auth is enabled without a valid session, is
answered 401 by the `requireSession` guard that runs before the query check. -/
theorem claim10_always_200_counterexample :
    ¬ ∀ (authEnabled sessionValid : Bool) (rawQuery rawLang : Option String)
        (searchResults : List OpenImageCandidate) (nasaO fetchO : String → Option String),
        StrUtil.takeS (StrUtil.trimS (rawQuery.getD "")) 220 ≠ "" →
        tokenize ((fun first => if first = ""
            then StrUtil.takeS (StrUtil.trimS (rawQuery.getD "")) 220 else first)
          ((buildSearchCandidates (StrUtil.takeS (StrUtil.trimS (rawQuery.getD "")) 220)
            (StrUtil.toUpperStr (rawLang.getD "EN"))).headD "")) ≠ [] →
        (openImagesHandler "GET" authEnabled sessionValid rawQuery rawLang searchResults
            nasaO fetchO).1 = 200 := by
  intro h
  have := h true false (some "solar system planets") (some "EN") [] wNoneOracle wNoneOracle
    (by decide) (by decide)
  exact absurd this (by decide)
